import Mathlib

/-!
Shallow embedding of the TypeScript console task manager (`src/index.ts`).

The program is a single mutable `TaskManager` class plus an interactive
menu loop (`runMenu`).  Methods mutate `this.tasks` / `this.nextId`, may
`throw new Error(...)`, and print lines with `console.log`.  We embed each
method as a pure function from the manager state to a `StepResult` record
holding: the state after the call (including mutations that happen before
a `throw`), the normal return or the thrown error, and the list of console
lines the method printed.  All methods of the class return `void`, so the
normal return is `Unit`.

The source throws plain `Error` objects; the spec classifies each throw
site as `ValidationError` or `NotFoundError`, so the embedded error type
tags each thrown message with the kind of its throw site.

String literals are reproduced from the source byte-for-byte; the
decorative glyph prefixes of the log lines are written as unicode escapes
and apostrophes as `\x27`.
-/

set_option autoImplicit false

namespace TaskMgr

/-- JavaScript `String.prototype.trim()`: removes leading and trailing
whitespace.  Written over the character list so that it evaluates inside
the kernel. -/
def jsTrim (s : String) : String :=
  ⟨((s.data.dropWhile Char.isWhitespace).reverse.dropWhile Char.isWhitespace).reverse⟩

/-- The `status` union type `'Pending' | 'Completed'` of the `Task` interface. -/
inductive TaskStatus where
  | Pending
  | Completed
deriving DecidableEq

/-- String form of a status, as interpolated by `${task.status}`. -/
def TaskStatus.toStr : TaskStatus → String
  | .Pending => "Pending"
  | .Completed => "Completed"

/-- The `Task` interface: `id`, `name`, `description`, `status`. -/
structure Task where
  id : Int
  name : String
  description : String
  status : TaskStatus
deriving DecidableEq

/-- The mutable state of the `TaskManager` class: `tasks` and `nextId`. -/
structure TaskManager where
  tasks : List Task
  nextId : Int
deriving DecidableEq

/-- The manager as constructed: `tasks = []`, `nextId = 1`. -/
def initTM : TaskManager := { tasks := [], nextId := 1 }

/-- A thrown error, tagged with the spec kind of its throw site. -/
inductive Err where
  | validation (msg : String)
  | notFound (msg : String)
deriving DecidableEq

/-- The `error.message` carried by a thrown error. -/
def Err.msg : Err → String
  | .validation m => m
  | .notFound m => m

/-- Result of one method call: state after it (mutations before a `throw`
included), the normal `void` return or the thrown error, and the printed
console lines in order. -/
structure StepResult where
  state : TaskManager
  result : Except Err Unit
  output : List String

/-- The success line printed by `addTask`. -/
def addSuccessMsg (id : Int) (name : String) : String :=
  "\n‚úÖ Task " ++ toString id ++ ": \x27" ++ name ++ "\x27 added successfully."

/-- Method `TaskManager.addTask(name, description)`: rejects a name that is empty
after trimming, else pushes a task with `id = nextId++`, trimmed name,
trimmed description (or the placeholder when the trimmed description is
empty, via `|| 'No description provided.'`), status `Pending`. -/
def addTask (m : TaskManager) (name description : String) : StepResult :=
  if jsTrim name = "" then
    { state := m
      result := .error (.validation "Task name cannot be empty.")
      output := [] }
  else
    let newTask : Task :=
      { id := m.nextId
        name := jsTrim name
        description := if jsTrim description = "" then "No description provided." else jsTrim description
        status := .Pending }
    { state := { tasks := m.tasks ++ [newTask], nextId := m.nextId + 1 }
      result := .ok ()
      output := [addSuccessMsg newTask.id newTask.name] }

/-- The success line printed by `removeTask`. -/
def removedMsg (id : Int) : String :=
  "\nüóëÔ∏è Task ID " ++ toString id ++ " removed."

/-- Method `TaskManager.removeTask(id)`: reassigns `tasks` to the array filtered
on `task.id !== id`, then throws if the length did not change.  The
reassignment happens before the length check, so the state field already
holds the filtered list in the error case (value-equal to the input). -/
def removeTask (m : TaskManager) (id : Int) : StepResult :=
  let newTasks := m.tasks.filter (fun t => t.id != id)
  if newTasks.length = m.tasks.length then
    { state := { m with tasks := newTasks }
      result := .error (.notFound ("Task with ID " ++ toString id ++ " not found."))
      output := [] }
  else
    { state := { m with tasks := newTasks }
      result := .ok ()
      output := [removedMsg id] }

/-- The icon chosen per task by `listTasks`. -/
def statusIcon (s : TaskStatus) : String :=
  match s with
  | .Completed => "‚úÖ"
  | .Pending => "‚è≥"

/-- One rendered task line: `${statusIcon} [${task.id}] ${task.name} - Status: ${task.status}`. -/
def taskLine (t : Task) : String :=
  statusIcon t.status ++ " [" ++ toString t.id ++ "] " ++ t.name ++ " - Status: " ++ t.status.toStr

/-- Method `TaskManager.listTasks()`: prints the header, then either the empty
message (and returns early) or one line per task followed by the footer. -/
def listTasks (m : TaskManager) : StepResult :=
  { state := m
    result := .ok ()
    output :=
      if m.tasks.length = 0 then
        ["\n--- Current Tasks ---", "Your task list is empty!"]
      else
        ["\n--- Current Tasks ---"] ++ m.tasks.map taskLine ++ ["---------------------"] }

/-- The line printed by `clearTasks`. -/
def clearedMsg : String := "\nüî• All tasks cleared."

/-- Method `TaskManager.clearTasks()`: sets `tasks = []`; `nextId` is untouched. -/
def clearTasks (m : TaskManager) : StepResult :=
  { state := { tasks := [], nextId := m.nextId }
    result := .ok ()
    output := [clearedMsg] }

/-- The error message of the status check in `updateTaskStatus`. -/
def invalidStatusMsg (status : String) : String :=
  "Invalid status: \x27" ++ status ++ "\x27. Must be \x27Pending\x27 or \x27Completed\x27."

/-- The success line printed by `updateTaskStatus`. -/
def updatedMsg (id : Int) (status : String) : String :=
  "\nüìù Task " ++ toString id ++ " status updated to: " ++ status

/-- The status value stored by `updateTaskStatus` after its check has
accepted the string (only reached when it is `Pending` or `Completed`). -/
def statusOfString (s : String) : TaskStatus :=
  if s = "Pending" then .Pending else .Completed

/-- In-place mutation of the task `find` located: the first task with the
given id gets the new status, every other element is untouched. -/
def setStatusFirst (id : Int) (s : TaskStatus) : List Task → List Task
  | [] => []
  | t :: ts => if t.id = id then { t with status := s } :: ts else t :: setStatusFirst id s ts

/-- Method `TaskManager.updateTaskStatus(id, status)`: rejects a status other
than `Pending`/`Completed` before any lookup, then looks up the first
task with the id (`find`), throws if none, else mutates its `status`. -/
def updateTaskStatus (m : TaskManager) (id : Int) (status : String) : StepResult :=
  if status ≠ "Pending" ∧ status ≠ "Completed" then
    { state := m
      result := .error (.validation (invalidStatusMsg status))
      output := [] }
  else
    match m.tasks.find? (fun t => t.id == id) with
    | none =>
      { state := m
        result := .error (.notFound ("Task with ID " ++ toString id ++ " not found for update."))
        output := [] }
    | some _ =>
      { state := { m with tasks := setStatusFirst id (statusOfString status) m.tasks }
        result := .ok ()
        output := [updatedMsg id status] }

/-! ## The menu layer (`runMenu`)

The loop reads a choice line (`prompt-sync` may yield `null`, embedded as
`Option String`), dispatches on the trimmed choice inside a `try` block,
and the `catch` prints the failure line and continues.  The id strings of
choices 3 and 4 go through `parseInt(idStr.trim())` with an `isNaN`
guard. -/

/-- Value of a decimal digit character, `none` otherwise. -/
def decDigit (c : Char) : Option Nat :=
  if c.isDigit then some (c.toNat - 48) else none

/-- Value of a hexadecimal digit character, `none` otherwise. -/
def hexDigit (c : Char) : Option Nat :=
  if c.isDigit then some (c.toNat - 48)
  else if 'a' ≤ c ∧ c ≤ 'f' then some (c.toNat - 87)
  else if 'A' ≤ c ∧ c ≤ 'F' then some (c.toNat - 55)
  else none

/-- Values of the longest prefix of digit characters. -/
def takeDigits (f : Char → Option Nat) : List Char → List Nat
  | [] => []
  | c :: cs =>
    match f c with
    | some d => d :: takeDigits f cs
    | none => []

/-- Numeric value of a digit sequence in the given base. -/
def digitsVal (base : Nat) (ds : List Nat) : Nat :=
  ds.foldl (fun a d => a * base + d) 0

/-- JavaScript `parseInt(s)` (radix argument omitted): skip leading
whitespace, optional sign, optional `0x`/`0X` prefix selecting base 16,
then the longest run of digits; `NaN` (here `none`) when that run is
empty, ignoring any trailing non-digit characters. -/
def parseIntJS (s : String) : Option Int :=
  let cs := s.data.dropWhile Char.isWhitespace
  let signRest : Int × List Char :=
    match cs with
    | '-' :: r => (-1, r)
    | '+' :: r => (1, r)
    | r => (1, r)
  let baseRest : Nat × List Char :=
    match signRest.2 with
    | '0' :: 'x' :: r => (16, r)
    | '0' :: 'X' :: r => (16, r)
    | r => (10, r)
  let ds := takeDigits (if baseRest.1 = 16 then hexDigit else decDigit) baseRest.2
  if ds.isEmpty then none
  else some (signRest.1 * (digitsVal baseRest.1 ds : Int))

/-- The message of the `throw new Error(\x27Invalid ID entered.\x27)` guard. -/
def invalidIdMsg : String := "Invalid ID entered."

/-- Menu choice `3`: trim the entered id string, `parseInt` it, throw the
id validation error on `NaN`, else call `removeTask`. -/
def removeFlow (m : TaskManager) (idStr : String) : StepResult :=
  match parseIntJS (jsTrim idStr) with
  | none =>
    { state := m, result := .error (.validation invalidIdMsg), output := [] }
  | some id => removeTask m id

/-- Menu choice `4`: first `listTasks` for reference, then the same id
parse as choice 3; on success prompt the status string, trim it, and call
`updateTaskStatus` with it. -/
def updateFlow (m : TaskManager) (idStr statusStr : String) : StepResult :=
  let listed := listTasks m
  match parseIntJS (jsTrim idStr) with
  | none =>
    { state := m, result := .error (.validation invalidIdMsg), output := listed.output }
  | some id =>
    let r := updateTaskStatus m id (jsTrim statusStr)
    { state := r.state, result := r.result, output := listed.output ++ r.output }

/-- The two states of the interaction loop: `running = true` / `false`. -/
inductive LoopState where
  | Running
  | Exited
deriving DecidableEq

/-- The lines a single cycle may read: the choice as `prompt-sync`
returns it (possibly `null`), and the secondary prompts, each defaulted
to the empty string by `|| ''` in the source. -/
structure CycleInput where
  choice : Option String
  name : Option String
  description : Option String
  idStr : Option String
  statusStr : Option String

/-- Outcome of one cycle of the `while (running)` loop. -/
structure CycleResult where
  state : TaskManager
  loopState : LoopState
  output : List String

/-- The no-input line of the `if (!choice)` guard. -/
def noInputMsg : String := "‚ùå No input received. Please try again."

/-- The default-branch line for an unrecognized choice. -/
def invalidSelMsg : String := "‚ùå Invalid selection. Please choose a number between 1 and 6."

/-- The line printed on choice `6` before the loop ends. -/
def goodbyeMsg : String := "\nüëã Exiting Task Manager. Goodbye!"

/-- The line the `catch` block prints for a thrown error. -/
def failMsg (msg : String) : String :=
  "\nüö® Operation Failed: " ++ msg

/-- The `try`/`catch` boundary of a cycle: a thrown error is converted to
the failure line and the loop stays `Running`; the state is the one the
step left behind. -/
def catchStep (sr : StepResult) : CycleResult :=
  { state := sr.state
    loopState := .Running
    output :=
      sr.output ++
        match sr.result with
        | .ok _ => []
        | .error e => [failMsg e.msg] }

/-- The `switch (choice.trim())` dispatch of one cycle, for a non-empty
choice line. -/
def dispatch (m : TaskManager) (inp : CycleInput) (c : String) : CycleResult :=
  match c with
  | "1" => catchStep (addTask m (inp.name.getD "") (inp.description.getD ""))
  | "2" => catchStep (listTasks m)
  | "3" => catchStep (removeFlow m (inp.idStr.getD ""))
  | "4" => catchStep (updateFlow m (inp.idStr.getD "") (inp.statusStr.getD ""))
  | "5" => catchStep (clearTasks m)
  | "6" => { state := m, loopState := .Exited, output := [goodbyeMsg] }
  | _ => { state := m, loopState := .Running, output := [invalidSelMsg] }

/-- One full cycle of `runMenu`: the `!choice` guard (null or empty line)
reports the no-input message, otherwise the trimmed choice is dispatched
with all errors caught at the cycle boundary. -/
def runCycle (m : TaskManager) (inp : CycleInput) : CycleResult :=
  match inp.choice with
  | none => { state := m, loopState := .Running, output := [noInputMsg] }
  | some c =>
    if c = "" then { state := m, loopState := .Running, output := [noInputMsg] }
    else dispatch m inp (jsTrim c)

/-- The store operation (or id-parsing flow) a cycle runs inside its
`try` block, when it runs one: choices 1-5 each run one step; no input,
choice 6 and unrecognized choices run none. -/
def cycleStep (m : TaskManager) (inp : CycleInput) : Option StepResult :=
  match inp.choice with
  | none => none
  | some c =>
    if c = "" then none
    else
      match jsTrim c with
      | "1" => some (addTask m (inp.name.getD "") (inp.description.getD ""))
      | "2" => some (listTasks m)
      | "3" => some (removeFlow m (inp.idStr.getD ""))
      | "4" => some (updateFlow m (inp.idStr.getD "") (inp.statusStr.getD ""))
      | "5" => some (clearTasks m)
      | _ => none

/-! ## Operation sequences against the store

For the identity-assignment invariant we run an arbitrary interleaving of
store calls from the initial manager and record the id of each task a
successful `addTask` appends. -/

/-- One store call, with its arguments. -/
inductive Op where
  | add (name description : String)
  | remove (id : Int)
  | update (id : Int) (status : String)
  | clear
  | list

/-- The manager state after one call (errors leave the state the method
left behind, exactly as in `StepResult.state`). -/
def applyOp (m : TaskManager) : Op → TaskManager
  | .add n d => (addTask m n d).state
  | .remove i => (removeTask m i).state
  | .update i s => (updateTaskStatus m i s).state
  | .clear => (clearTasks m).state
  | .list => (listTasks m).state

/-- The id of the task a successful `addTask` call appends (read from the
store: the last task of the resulting collection), `none` when the call
throws. -/
def addedId (m : TaskManager) (n d : String) : Option Int :=
  match (addTask m n d).result with
  | .error _ => none
  | .ok _ => ((addTask m n d).state.tasks.getLast?).map Task.id

/-- Run a call sequence, final state. -/
def runOps (m : TaskManager) : List Op → TaskManager
  | [] => m
  | op :: ops => runOps (applyOp m op) ops

/-- The ids assigned by the successful `add` calls of a sequence, in
order. -/
def assignedIds (m : TaskManager) : List Op → List Int
  | [] => []
  | .add n d :: ops => (addedId m n d).toList ++ assignedIds (applyOp m (.add n d)) ops
  | .remove i :: ops => assignedIds (applyOp m (.remove i)) ops
  | .update i s :: ops => assignedIds (applyOp m (.update i s)) ops
  | .clear :: ops => assignedIds (applyOp m .clear) ops
  | .list :: ops => assignedIds (applyOp m .list) ops

/-- The number of `add` calls of a sequence that succeed (non-empty
trimmed name). -/
def countAdds : List Op → Nat
  | [] => 0
  | .add n _ :: ops => (if jsTrim n = "" then 0 else 1) + countAdds ops
  | .remove _ :: ops => countAdds ops
  | .update _ _ :: ops => countAdds ops
  | .clear :: ops => countAdds ops
  | .list :: ops => countAdds ops

/-- The arithmetic sequence `[s, s+1, ..., s+n-1]`. -/
def intRange (s : Int) : Nat → List Int
  | 0 => []
  | n + 1 => s :: intRange (s + 1) n

/-- A step fails with a `ValidationError` when its thrown error carries
the validation tag (whatever the message). -/
def failsValidation (sr : StepResult) : Prop :=
  ∃ msg, sr.result = .error (.validation msg)

/-- A concrete two-task store used to instantiate theorems with
hypotheses. -/
def demoStore : TaskManager :=
  ⟨[⟨1, "a", "x", .Pending⟩, ⟨2, "b", "y", .Completed⟩], 3⟩

/-! ## Theorems -/

/-- Shape of a successful `addTask` call. -/
theorem addTask_of_nonempty (m : TaskManager) (n d : String) (h : ¬ jsTrim n = "") :
    addTask m n d =
      { state :=
          { tasks := m.tasks ++
              [{ id := m.nextId
                 name := jsTrim n
                 description := if jsTrim d = "" then "No description provided." else jsTrim d
                 status := .Pending }]
            nextId := m.nextId + 1 }
        result := .ok ()
        output := [addSuccessMsg m.nextId (jsTrim n)] } := by
  simp [addTask, h]

/-- C3: for every name whose trimmed form is empty and every description,
`addTask` throws the `ValidationError` "Task name cannot be empty.", the
state field equals the input store (same task collection and same
`nextId`), and nothing is printed. -/
theorem C3_add_empty_name_rejected (m : TaskManager) (name d : String)
    (h : jsTrim name = "") :
    addTask m name d =
      { state := m
        result := .error (.validation "Task name cannot be empty.")
        output := [] } := by
  simp [addTask, h]

/-- C3 witness: both `add("", "x")` and `add("   ", "x")` fail with the
validation error and leave the initial store untouched. -/
theorem C3_add_empty_name_rejected_witness :
    jsTrim "" = "" ∧ jsTrim "   " = "" ∧
    addTask initTM "" "x" =
      { state := initTM
        result := .error (.validation "Task name cannot be empty.")
        output := [] } ∧
    addTask initTM "   " "x" =
      { state := initTM
        result := .error (.validation "Task name cannot be empty.")
        output := [] } :=
  ⟨by decide, by decide,
   C3_add_empty_name_rejected initTM "" "x" (by decide),
   C3_add_empty_name_rejected initTM "   " "x" (by decide)⟩

/-- C4: a successful `addTask` appends, at the end of the collection, a
task carrying the trimmed name, the trimmed description (or the
placeholder `No description provided.` when the trimmed description is
empty), status `Pending`, and the current `nextId` as id, and increments
`nextId`; the rest of the collection, hence the listing order, is
untouched. -/
theorem C4_add_success_effect (m : TaskManager) (name d : String)
    (h : ¬ jsTrim name = "") :
    (addTask m name d).state.tasks =
      m.tasks ++
        [{ id := m.nextId
           name := jsTrim name
           description := if jsTrim d = "" then "No description provided." else jsTrim d
           status := .Pending }] ∧
    (addTask m name d).state.nextId = m.nextId + 1 := by
  rw [addTask_of_nonempty m name d h]
  exact ⟨rfl, rfl⟩

/-- C4 witness: `add("Buy milk", "")` on the initial store yields a task
with id 1, the placeholder description and status `Pending`. -/
theorem C4_add_success_effect_witness :
    ¬ jsTrim "Buy milk" = "" ∧
    (addTask initTM "Buy milk" "").state.tasks =
      [{ id := 1, name := "Buy milk", description := "No description provided.",
         status := .Pending }] ∧
    (addTask initTM "Buy milk" "").state.nextId = 2 := by
  refine ⟨by decide, ?_, ?_⟩
  · have h := (C4_add_success_effect initTM "Buy milk" "" (by decide)).1
    simpa using h
  · exact (C4_add_success_effect initTM "Buy milk" "" (by decide)).2

/-- C2 counterexample: the claim says `add` returns the created `Task`
and has no observable effect other than mutating the store.  In the
source `addTask` is declared `: void` and returns nothing — embedded, its
normal result is the unit value — and it prints a confirmation line with
`console.log`, an observable effect beyond the store mutation: at the
concrete call `add("a", "b")` on the initial store the printed output is
non-empty while the returned value is `()`. -/
theorem C2_counterexample :
    (addTask initTM "a" "b").result = .ok () ∧ (addTask initTM "a" "b").output ≠ [] := by
  constructor
  · rfl
  · decide

/-- C2 (amended): for every name with non-empty trimmed form and every
description, `addTask` returns void (unit, not the created task), mutates
the store by appending the created task (assigned id, trimmed name,
stored description, status `Pending`) and incrementing `nextId`, and its
only other observable effect is printing the single confirmation line. -/
theorem C2_add_returns_void (m : TaskManager) (name d : String)
    (h : ¬ jsTrim name = "") :
    (addTask m name d).result = .ok () ∧
    (addTask m name d).state =
      { tasks := m.tasks ++
          [{ id := m.nextId
             name := jsTrim name
             description := if jsTrim d = "" then "No description provided." else jsTrim d
             status := .Pending }]
        nextId := m.nextId + 1 } ∧
    (addTask m name d).output = [addSuccessMsg m.nextId (jsTrim name)] := by
  rw [addTask_of_nonempty m name d h]
  exact ⟨rfl, rfl, rfl⟩

/-- C2 witness: the amended statement at `add("a", "b")` on the initial
store. -/
theorem C2_add_returns_void_witness :
    ¬ jsTrim "a" = "" ∧
    (addTask initTM "a" "b").result = .ok () ∧
    (addTask initTM "a" "b").state =
      { tasks := [{ id := 1, name := "a", description := "b", status := .Pending }]
        nextId := 2 } ∧
    (addTask initTM "a" "b").output = [addSuccessMsg 1 "a"] := by
  have h := C2_add_returns_void initTM "a" "b" (by decide)
  refine ⟨by decide, h.1, ?_, ?_⟩
  · have h2 := h.2.1
    simpa using h2
  · have h3 := h.2.2
    simpa using h3

/-- C6: for every id and every status string other than `Pending` or
`Completed`, `updateTaskStatus` throws the status `ValidationError`
before any lookup: the state field equals the input store whether or not
a task with the id exists, and nothing is printed. -/
theorem C6_update_invalid_status (m : TaskManager) (id : Int) (status : String)
    (h1 : status ≠ "Pending") (h2 : status ≠ "Completed") :
    updateTaskStatus m id status =
      { state := m
        result := .error (.validation (invalidStatusMsg status))
        output := [] } := by
  simp [updateTaskStatus, h1, h2]

/-- C6 witness: `updateStatus(1, "Done")` on a store that does hold a
task with id 1 fails with the validation error and changes nothing. -/
theorem C6_update_invalid_status_witness :
    ("Done" : String) ≠ "Pending" ∧ ("Done" : String) ≠ "Completed" ∧
    (∃ t ∈ demoStore.tasks, t.id = 1) ∧
    updateTaskStatus demoStore 1 "Done" =
      { state := demoStore
        result := .error (.validation (invalidStatusMsg "Done"))
        output := [] } :=
  ⟨by decide, by decide, by decide,
   C6_update_invalid_status demoStore 1 "Done" (by decide) (by decide)⟩

/-- C8: for every store, `clearTasks` empties the collection and keeps
`nextId`; a `listTasks` on the cleared store prints the empty-list
message; and clearing is idempotent and error-free on an already-empty
store. -/
theorem C8_clear_idempotent (m : TaskManager) :
    clearTasks m =
      { state := { tasks := [], nextId := m.nextId }
        result := .ok ()
        output := [clearedMsg] } ∧
    (listTasks (clearTasks m).state).output =
      ["\n--- Current Tasks ---", "Your task list is empty!"] ∧
    (clearTasks (clearTasks m).state).state = (clearTasks m).state ∧
    (clearTasks (clearTasks m).state).result = .ok () := by
  refine ⟨rfl, ?_, rfl, rfl⟩
  simp [listTasks, clearTasks]

/-- In a store whose task ids are pairwise distinct, all tasks other than
a member `t` have ids different from `t.id`. -/
theorem ids_ne_of_nodup (l₁ l₂ : List Task) (t : Task)
    (hnd : (((l₁ ++ t :: l₂).map Task.id)).Nodup) :
    (∀ u ∈ l₁, u.id ≠ t.id) ∧ (∀ u ∈ l₂, u.id ≠ t.id) := by
  rw [List.map_append, List.map_cons, List.nodup_middle, List.nodup_cons] at hnd
  have hnotmem : t.id ∉ l₁.map Task.id ++ l₂.map Task.id := hnd.1
  rw [List.mem_append] at hnotmem
  constructor
  · intro u hu he
    exact hnotmem (Or.inl (he ▸ List.mem_map_of_mem Task.id hu))
  · intro u hu he
    exact hnotmem (Or.inr (he ▸ List.mem_map_of_mem Task.id hu))

/-- C5: with pairwise-distinct ids (a store invariant), `removeTask`
either deletes exactly the task holding the id, keeping every other task
in its relative order, or — when no task holds the id — throws the
`NotFoundError` and leaves the store unchanged in size and contents. -/
theorem C5_remove_correct (m : TaskManager) (id : Int)
    (hnd : (m.tasks.map Task.id).Nodup) :
    ((∀ t ∈ m.tasks, t.id ≠ id) →
      removeTask m id =
        { state := m
          result := .error (.notFound ("Task with ID " ++ toString id ++ " not found."))
          output := [] }) ∧
    (∀ t ∈ m.tasks, t.id = id →
      ∃ l₁ l₂, m.tasks = l₁ ++ t :: l₂ ∧
        removeTask m id =
          { state := { tasks := l₁ ++ l₂, nextId := m.nextId }
            result := .ok ()
            output := [removedMsg id] }) := by
  constructor
  · intro hall
    have hfilter : m.tasks.filter (fun t => t.id != id) = m.tasks := by
      apply List.filter_eq_self.mpr
      intro a ha
      simpa using hall a ha
    simp [removeTask, hfilter]
  · intro t ht hid
    obtain ⟨l₁, l₂, heq⟩ := List.append_of_mem ht
    refine ⟨l₁, l₂, heq, ?_⟩
    have hnd' : ((l₁ ++ t :: l₂).map Task.id).Nodup := heq ▸ hnd
    obtain ⟨h₁, h₂⟩ := ids_ne_of_nodup l₁ l₂ t hnd'
    have hf : (l₁ ++ t :: l₂).filter (fun u => u.id != id) = l₁ ++ l₂ := by
      rw [List.filter_append, List.filter_cons]
      have hft : (t.id != id) = false := by simp [hid]
      rw [hft]
      have hf₁ : l₁.filter (fun u => u.id != id) = l₁ := by
        apply List.filter_eq_self.mpr
        intro u hu
        simpa using hid ▸ h₁ u hu
      have hf₂ : l₂.filter (fun u => u.id != id) = l₂ := by
        apply List.filter_eq_self.mpr
        intro u hu
        simpa using hid ▸ h₂ u hu
      rw [if_neg (by simp), hf₁, hf₂]
    have hlen : (l₁ ++ l₂).length ≠ (l₁ ++ t :: l₂).length := by
      simp [List.length_append]
    simp only [removeTask, heq, hf]
    rw [if_neg hlen]

/-- C5 witness: on the two-task demo store, removing id 1 deletes
exactly that task and removing the unknown id 99 fails with the
`NotFoundError`, leaving the store unchanged. -/
theorem C5_remove_correct_witness :
    (demoStore.tasks.map Task.id).Nodup ∧
    (∃ l₁ l₂, demoStore.tasks = l₁ ++ (⟨1, "a", "x", .Pending⟩ : Task) :: l₂ ∧
      removeTask demoStore 1 =
        { state := { tasks := l₁ ++ l₂, nextId := demoStore.nextId }
          result := .ok ()
          output := [removedMsg 1] }) ∧
    removeTask demoStore 99 =
      { state := demoStore
        result := .error (.notFound ("Task with ID " ++ toString (99 : Int) ++ " not found."))
        output := [] } :=
  ⟨by decide,
   (C5_remove_correct demoStore 1 (by decide)).2 ⟨1, "a", "x", .Pending⟩ (by decide) rfl,
   (C5_remove_correct demoStore 99 (by decide)).1 (by decide)⟩

/-- With pairwise-distinct ids, mutating the status of the first task
holding an id is the same as mapping the status update over the matching
task pointwise. -/
theorem setStatusFirst_eq_map (id : Int) (s : TaskStatus) (l : List Task)
    (hnd : (l.map Task.id).Nodup) :
    setStatusFirst id s l =
      l.map (fun u => if u.id = id then { u with status := s } else u) := by
  induction l with
  | nil => rfl
  | cons t ts ih =>
    rw [List.map_cons, List.nodup_cons] at hnd
    by_cases h : t.id = id
    · simp only [setStatusFirst, if_pos h, List.map_cons]
      congr 1
      have hall : ∀ u ∈ ts, (if u.id = id then { u with status := s } else u) = u := by
        intro u hu
        rw [if_neg]
        intro he
        apply hnd.1
        rw [h, ← he]
        exact List.mem_map_of_mem Task.id hu
      rw [List.map_congr_left hall]
      exact (List.map_id' ts).symm
    · simp only [setStatusFirst, if_neg h, List.map_cons]
      rw [ih hnd.2]

/-- C7: with a valid status and an existing id in a store with
pairwise-distinct ids, `updateTaskStatus` only replaces the status field
of the matching task: every other task, every other field, the order and
size of the collection and `nextId` are untouched, and exactly the
update confirmation line is printed. -/
theorem C7_update_status_frame (m : TaskManager) (id : Int) (status : String)
    (hs : status = "Pending" ∨ status = "Completed")
    (hnd : (m.tasks.map Task.id).Nodup)
    (hex : ∃ t ∈ m.tasks, t.id = id) :
    updateTaskStatus m id status =
      { state :=
          { tasks := m.tasks.map
              (fun u => if u.id = id then { u with status := statusOfString status } else u)
            nextId := m.nextId }
        result := .ok ()
        output := [updatedMsg id status] } := by
  have hcond : ¬ (status ≠ "Pending" ∧ status ≠ "Completed") := by
    rcases hs with h | h <;> simp [h]
  have hsome : (m.tasks.find? (fun t => t.id == id)).isSome := by
    rw [List.find?_isSome]
    obtain ⟨t, ht, hid⟩ := hex
    exact ⟨t, ht, by simp [hid]⟩
  obtain ⟨t₀, h₀⟩ := Option.isSome_iff_exists.mp hsome
  simp only [updateTaskStatus]
  rw [if_neg hcond, h₀]
  rw [setStatusFirst_eq_map id (statusOfString status) m.tasks hnd]

/-- C7 witness: on the demo store, `updateStatus(2, "Pending")` changes
only the status field of the task with id 2. -/
theorem C7_update_status_frame_witness :
    (("Pending" : String) = "Pending" ∨ ("Pending" : String) = "Completed") ∧
    (demoStore.tasks.map Task.id).Nodup ∧
    (∃ t ∈ demoStore.tasks, t.id = 2) ∧
    updateTaskStatus demoStore 2 "Pending" =
      { state :=
          { tasks := [⟨1, "a", "x", .Pending⟩, ⟨2, "b", "y", .Pending⟩]
            nextId := 3 }
        result := .ok ()
        output := [updatedMsg 2 "Pending"] } := by
  refine ⟨Or.inl rfl, by decide, by decide, ?_⟩
  have h := C7_update_status_frame demoStore 2 "Pending" (Or.inl rfl) (by decide) (by decide)
  rw [h]
  rfl

/-- The status-validation message can never coincide with the
id-validation message (their lengths differ for every status string). -/
theorem invalidStatusMsg_ne_invalidId (s : String) : invalidStatusMsg s ≠ invalidIdMsg := by
  intro h
  have hl : (invalidStatusMsg s).length = invalidIdMsg.length := by rw [h]
  simp only [invalidStatusMsg, invalidIdMsg, String.length_append] at hl
  have h1 : ("Invalid status: \x27" : String).length = 17 := by decide
  have h2 : ("\x27. Must be \x27Pending\x27 or \x27Completed\x27." : String).length = 36 := by decide
  have h3 : ("Invalid ID entered." : String).length = 19 := by decide
  rw [h1, h2, h3] at hl
  omega

/-- C9 counterexample: the claim says the cycle fails with a
`ValidationError` only if the id string does not parse.  In the
update-status flow the id string `"5"` parses, yet the cycle fails with
the status `ValidationError` because the status string `"Done"` is
invalid (the source checks the status before the lookup). -/
theorem C9_counterexample :
    parseIntJS (jsTrim "5") = some 5 ∧
    failsValidation (updateFlow initTM "5" "Done") :=
  ⟨by decide, ⟨invalidStatusMsg "Done", rfl⟩⟩

/-- C9 (amended): in both id flows the trimmed id string goes through
`parseInt`; the cycle fails with the id `ValidationError` exactly when
the string does not parse, and on a successful parse the parsed integer
is what reaches `removeTask` / `updateTaskStatus` (in the update flow a
further `ValidationError` about the status string is still possible). -/
theorem C9_id_parse_amended (m : TaskManager) (idStr statusStr : String) :
    ((removeFlow m idStr).result = .error (.validation invalidIdMsg) ↔
      parseIntJS (jsTrim idStr) = none) ∧
    ((updateFlow m idStr statusStr).result = .error (.validation invalidIdMsg) ↔
      parseIntJS (jsTrim idStr) = none) ∧
    (∀ id, parseIntJS (jsTrim idStr) = some id →
      removeFlow m idStr = removeTask m id ∧
      (updateFlow m idStr statusStr).state = (updateTaskStatus m id (jsTrim statusStr)).state ∧
      (updateFlow m idStr statusStr).result = (updateTaskStatus m id (jsTrim statusStr)).result) := by
  cases hp : parseIntJS (jsTrim idStr) with
  | none =>
    refine ⟨?_, ?_, ?_⟩
    · simp [removeFlow, hp]
    · simp [updateFlow, hp]
    · intro id h
      cases h
  | some id =>
    refine ⟨?_, ?_, ?_⟩
    · simp only [removeFlow, hp]
      constructor
      · intro h
        exfalso
        rw [removeTask] at h
        revert h
        split <;> simp
      · intro h
        cases h
    · simp only [updateFlow, hp]
      constructor
      · intro h
        exfalso
        revert h
        simp only [updateTaskStatus]
        split
        · simp [invalidStatusMsg_ne_invalidId]
        · split <;> simp
      · intro h
        cases h
    · intro id' h
      cases h
      exact ⟨by simp [removeFlow, hp], by simp [updateFlow, hp], by simp [updateFlow, hp]⟩

/-- C9 witness: an unparseable id string fails with the id
`ValidationError`, and a parseable one reaches `removeTask` with the
parsed integer. -/
theorem C9_id_parse_amended_witness :
    (removeFlow initTM "abc").result = .error (.validation invalidIdMsg) ∧
    parseIntJS (jsTrim "2") = some 2 ∧
    removeFlow demoStore "2" = removeTask demoStore 2 := by
  refine ⟨?_, by decide, ?_⟩
  · exact (C9_id_parse_amended initTM "abc" "").1.mpr (by decide)
  · exact ((C9_id_parse_amended demoStore "2" "").2.2 2 (by decide)).1

/-- Facts about the catch boundary: it always continues the loop, keeps
the state the step left, and prints the failure line of a thrown
error. -/
theorem catchStep_spec (sr : StepResult) :
    (catchStep sr).loopState = .Running ∧
    (catchStep sr).state = sr.state ∧
    ∀ e, sr.result = .error e → failMsg e.msg ∈ (catchStep sr).output := by
  refine ⟨rfl, rfl, ?_⟩
  intro e he
  simp [catchStep, he]

/-- C10: every cycle of the loop is total; the loop leaves `Running`
exactly on a non-empty choice line whose trimmed form is `6`; and any
error thrown by the store operation or the id parsing of a cycle is
caught at the boundary: the loop stays `Running`, keeps the state the
step produced, and the failure line carrying the error message is
printed. -/
theorem C10_errors_caught (m : TaskManager) (inp : CycleInput) :
    ((runCycle m inp).loopState = .Exited ↔
      ∃ c, inp.choice = some c ∧ c ≠ "" ∧ jsTrim c = "6") ∧
    (∀ sr e, cycleStep m inp = some sr → sr.result = .error e →
      (runCycle m inp).loopState = .Running ∧
      (runCycle m inp).state = sr.state ∧
      failMsg e.msg ∈ (runCycle m inp).output) := by
  cases hch : inp.choice with
  | none =>
    constructor
    · simp [runCycle, hch]
    · intro sr e hsr herr
      rw [cycleStep, hch] at hsr
      cases hsr
  | some c =>
    by_cases hc : c = ""
    · constructor
      · simp [runCycle, hch, hc]
      · intro sr e hsr herr
        simp [cycleStep, hch, hc] at hsr
    · have hrun : runCycle m inp = dispatch m inp (jsTrim c) := by
        simp [runCycle, hch, hc]
      have hstep : cycleStep m inp =
          (match jsTrim c with
           | "1" => some (addTask m (inp.name.getD "") (inp.description.getD ""))
           | "2" => some (listTasks m)
           | "3" => some (removeFlow m (inp.idStr.getD ""))
           | "4" => some (updateFlow m (inp.idStr.getD "") (inp.statusStr.getD ""))
           | "5" => some (clearTasks m)
           | _ => none) := by
        simp [cycleStep, hch, hc]
      rw [hrun, hstep]
      generalize hg : jsTrim c = s
      unfold dispatch
      split
      · constructor
        · constructor
          · intro h
            cases h
          · rintro ⟨c', hsome, hne, h6⟩
            rw [Option.some.injEq] at hsome
            rw [← hsome, hg] at h6
            exact absurd h6 (by decide)
        · intro sr e hsr herr
          cases hsr
          exact ⟨rfl, rfl, (catchStep_spec _).2.2 e herr⟩
      · constructor
        · constructor
          · intro h
            cases h
          · rintro ⟨c', hsome, hne, h6⟩
            rw [Option.some.injEq] at hsome
            rw [← hsome, hg] at h6
            exact absurd h6 (by decide)
        · intro sr e hsr herr
          cases hsr
          exact ⟨rfl, rfl, (catchStep_spec _).2.2 e herr⟩
      · constructor
        · constructor
          · intro h
            cases h
          · rintro ⟨c', hsome, hne, h6⟩
            rw [Option.some.injEq] at hsome
            rw [← hsome, hg] at h6
            exact absurd h6 (by decide)
        · intro sr e hsr herr
          cases hsr
          exact ⟨rfl, rfl, (catchStep_spec _).2.2 e herr⟩
      · constructor
        · constructor
          · intro h
            cases h
          · rintro ⟨c', hsome, hne, h6⟩
            rw [Option.some.injEq] at hsome
            rw [← hsome, hg] at h6
            exact absurd h6 (by decide)
        · intro sr e hsr herr
          cases hsr
          exact ⟨rfl, rfl, (catchStep_spec _).2.2 e herr⟩
      · constructor
        · constructor
          · intro h
            cases h
          · rintro ⟨c', hsome, hne, h6⟩
            rw [Option.some.injEq] at hsome
            rw [← hsome, hg] at h6
            exact absurd h6 (by decide)
        · intro sr e hsr herr
          cases hsr
          exact ⟨rfl, rfl, (catchStep_spec _).2.2 e herr⟩
      · constructor
        · constructor
          · intro _
            exact ⟨c, rfl, hc, hg⟩
          · intro _
            rfl
        · intro sr e hsr herr
          cases hsr
      · rename_i hs1 hs2 hs3 hs4 hs5 hs6
        constructor
        · constructor
          · intro h
            cases h
          · rintro ⟨c', hsome, hne, h6⟩
            rw [Option.some.injEq] at hsome
            rw [← hsome, hg] at h6
            simp_all
        · intro sr e hsr herr
          split at hsr <;> simp_all

/-- C10 witness: a failing cycle (choice 3 with an unparseable id) is
caught and reported while the loop keeps running, and choice 6 exits. -/
theorem C10_errors_caught_witness :
    cycleStep initTM ⟨some "3", none, none, some "zz", none⟩ = some (removeFlow initTM "zz") ∧
    (removeFlow initTM "zz").result = .error (.validation invalidIdMsg) ∧
    ((runCycle initTM ⟨some "3", none, none, some "zz", none⟩).loopState = .Running ∧
     (runCycle initTM ⟨some "3", none, none, some "zz", none⟩).state = (removeFlow initTM "zz").state ∧
     failMsg (Err.validation invalidIdMsg).msg ∈
       (runCycle initTM ⟨some "3", none, none, some "zz", none⟩).output) ∧
    (runCycle initTM ⟨some "6", none, none, none, none⟩).loopState = .Exited := by
  refine ⟨rfl, rfl, ?_, ?_⟩
  · exact (C10_errors_caught initTM ⟨some "3", none, none, some "zz", none⟩).2
      (removeFlow initTM "zz") (.validation invalidIdMsg) rfl rfl
  · exact (C10_errors_caught initTM ⟨some "6", none, none, none, none⟩).1.mpr
      ⟨"6", rfl, by decide, by decide⟩

/-- Lemma: `removeTask` never touches the id counter. -/
theorem removeTask_nextId (m : TaskManager) (id : Int) :
    (removeTask m id).state.nextId = m.nextId := by
  simp only [removeTask]
  split <;> rfl

/-- Lemma: `updateTaskStatus` never touches the id counter. -/
theorem updateTaskStatus_nextId (m : TaskManager) (id : Int) (s : String) :
    (updateTaskStatus m id s).state.nextId = m.nextId := by
  simp only [updateTaskStatus]
  split
  · rfl
  · split <;> rfl

/-- A failed `addTask` leaves the state untouched. -/
theorem addTask_state_empty (m : TaskManager) (n d : String) (h : jsTrim n = "") :
    (addTask m n d).state = m := by
  simp [addTask, h]

/-- Lemma: `addTask` bumps the counter exactly on success. -/
theorem addTask_nextId (m : TaskManager) (n d : String) :
    (addTask m n d).state.nextId =
      if jsTrim n = "" then m.nextId else m.nextId + 1 := by
  by_cases h : jsTrim n = "" <;> simp [addTask, h]

/-- The id a successful `addTask` hands out is the `nextId` of the store
it was called on; a failed call hands out none. -/
theorem addedId_eq (m : TaskManager) (n d : String) :
    addedId m n d = if jsTrim n = "" then none else some m.nextId := by
  by_cases h : jsTrim n = "" <;> simp [addedId, addTask, h]

/-- Invariant: over any operation sequence, the ids handed out are the
arithmetic sequence starting at the current counter, one per successful
add. -/
theorem assignedIds_run (ops : List Op) :
    ∀ m : TaskManager, assignedIds m ops = intRange m.nextId (countAdds ops) := by
  induction ops with
  | nil => intro m; rfl
  | cons op ops ih =>
    intro m
    cases op with
    | add n d =>
      simp only [assignedIds, countAdds, addedId_eq]
      rw [ih (applyOp m (.add n d))]
      by_cases h : jsTrim n = ""
      · rw [if_pos h, if_pos h]
        have hnext : (applyOp m (.add n d)).nextId = m.nextId := by
          simp [applyOp, addTask_nextId, h]
        rw [hnext]
        simp
      · rw [if_neg h, if_neg h]
        have hnext : (applyOp m (.add n d)).nextId = m.nextId + 1 := by
          simp [applyOp, addTask_nextId, h]
        rw [hnext, Nat.add_comm 1 (countAdds ops)]
        rfl
    | remove i =>
      simp only [assignedIds, countAdds]
      rw [ih (applyOp m (.remove i))]
      have hnext : (applyOp m (.remove i)).nextId = m.nextId := removeTask_nextId m i
      rw [hnext]
    | update i s =>
      simp only [assignedIds, countAdds]
      rw [ih (applyOp m (.update i s))]
      have hnext : (applyOp m (.update i s)).nextId = m.nextId := updateTaskStatus_nextId m i s
      rw [hnext]
    | clear =>
      simp only [assignedIds, countAdds]
      rw [ih (applyOp m .clear)]
      rfl
    | list =>
      simp only [assignedIds, countAdds]
      rw [ih (applyOp m .list)]
      rfl

/-- Every member of `intRange s n` is at least `s`. -/
theorem intRange_le_mem (x s : Int) (n : Nat) : x ∈ intRange s n → s ≤ x := by
  induction n generalizing s with
  | zero =>
    intro h
    cases h
  | succ k ih =>
    intro h
    rw [intRange] at h
    rcases List.mem_cons.mp h with h | h
    · omega
    · have := ih (s + 1) h
      omega

/-- The arithmetic sequence has no duplicates. -/
theorem intRange_nodup (s : Int) (n : Nat) : (intRange s n).Nodup := by
  induction n generalizing s with
  | zero => exact List.nodup_nil
  | succ k ih =>
    rw [intRange, List.nodup_cons]
    refine ⟨fun hmem => ?_, ih (s + 1)⟩
    have := intRange_le_mem s (s + 1) k hmem
    omega

/-- C1: over every interleaving of store calls starting from the initial
manager, the ids assigned by the successful adds are exactly
`1, 2, ..., n` in order — strictly increasing by 1 from 1 — and contain
no duplicate, so an id freed by `remove` or `clear` is never handed out
again. -/
theorem C1_ids_monotonic_no_reuse (ops : List Op) :
    assignedIds initTM ops = intRange 1 (countAdds ops) ∧
    (assignedIds initTM ops).Nodup := by
  have h := assignedIds_run ops initTM
  refine ⟨h, ?_⟩
  rw [h]
  exact intRange_nodup 1 (countAdds ops)

end TaskMgr
